import Mathlib

/-!
Verification of the version snapshot / discard service of `omnify-core-gui`
(`src/server/services/versionService.ts`), as a shallow embedding in Lean 4.

Modelling conventions:
* TypeScript records with a fixed set of optional keys become Lean structures
  whose fields are `Option`-typed; a key being absent (`undefined`) is `none`.
* Record objects keyed by strings (`Record<string, T>` iterated with
  `Object.entries`) become insertion-ordered association lists
  `List (String × T)`.
* Opaque scalar values (`unknown` in the source) are modelled by the small
  universe `JVal`, which is only ever copied by the code under study.
* The structured-text (YAML) serializer/deserializer pair is treated as the
  identity on the structured document: a written file is modelled by the
  structured record the source builds before calling `stringify`, and reading
  it back yields that record.
-/

/-- Opaque scalar value (the source's `unknown`): only ever copied verbatim. -/
inductive JVal where
  | str (s : String)
  | int (n : Int)
  | bool (b : Bool)
  | null
  deriving DecidableEq, Repr

/-- A raw schema property as handed to `propertyToSnapshot`
(`versionService.ts` lines 79-103): a `type` tag, the twenty optional
attributes the function inspects, and `extra`, the remaining keys of the
`Record<string, unknown>` that the function never reads. -/
structure RawProp where
  type : String
  displayName : Option String := none
  description : Option String := none
  nullable : Option Bool := none
  unique : Option Bool := none
  default : Option JVal := none
  length : Option Int := none
  unsigned : Option Bool := none
  precision : Option Int := none
  scale : Option Int := none
  enum : Option (List String) := none
  relation : Option String := none
  target : Option String := none
  targets : Option (List String) := none
  morphName : Option String := none
  onDelete : Option String := none
  onUpdate : Option String := none
  mappedBy : Option String := none
  inversedBy : Option String := none
  joinTable : Option String := none
  owning : Option Bool := none
  extra : List (String × JVal) := []
  deriving DecidableEq, Repr

/-- `VersionPropertySnapshot`: the normalized property, `type` plus the same
twenty optional attributes (and nothing else). -/
structure PropSnap where
  type : String
  displayName : Option String := none
  description : Option String := none
  nullable : Option Bool := none
  unique : Option Bool := none
  default : Option JVal := none
  length : Option Int := none
  unsigned : Option Bool := none
  precision : Option Int := none
  scale : Option Int := none
  enum : Option (List String) := none
  relation : Option String := none
  target : Option String := none
  targets : Option (List String) := none
  morphName : Option String := none
  onDelete : Option String := none
  onUpdate : Option String := none
  mappedBy : Option String := none
  inversedBy : Option String := none
  joinTable : Option String := none
  owning : Option Bool := none
  deriving DecidableEq, Repr

/-- `propertyToSnapshot` (`versionService.ts` lines 79-103): copy `type`,
and copy each optional attribute exactly when it is defined on the input
(the `...(prop.k !== undefined && { k: prop.k })` spreads). -/
def propertyToSnapshot (prop : RawProp) : PropSnap :=
  { type := prop.type
    displayName := prop.displayName
    description := prop.description
    nullable := prop.nullable
    unique := prop.unique
    default := prop.default
    length := prop.length
    unsigned := prop.unsigned
    precision := prop.precision
    scale := prop.scale
    enum := prop.enum
    relation := prop.relation
    target := prop.target
    targets := prop.targets
    morphName := prop.morphName
    onDelete := prop.onDelete
    onUpdate := prop.onUpdate
    mappedBy := prop.mappedBy
    inversedBy := prop.inversedBy
    joinTable := prop.joinTable
    owning := prop.owning }

/-- An index entry, both in raw `options.indexes` form and in snapshot form
(`versionService.ts` lines 124-130 copy exactly these four keys, the last
three only when defined). -/
structure IndexSnap where
  columns : List String
  unique : Option Bool := none
  name : Option String := none
  type : Option String := none
  deriving DecidableEq, Repr

/-- Raw schema-level options as read by `schemasToSnapshot`
(`versionService.ts` lines 121-152): the seven scalar options, explicit
`indexes`, and the legacy `unique` constraint lists. -/
structure RawOptions where
  id : Option Bool := none
  idType : Option String := none
  timestamps : Option Bool := none
  softDelete : Option Bool := none
  tableName : Option String := none
  translations : Option Bool := none
  authenticatable : Option Bool := none
  indexes : Option (List IndexSnap) := none
  unique : Option (List (List String)) := none
  deriving DecidableEq, Repr

/-- Snapshot-level options record built at `versionService.ts` lines 144-152;
a key is `none` when the source leaves it out of `snapshotOptions`. -/
structure SnapOptions where
  id : Option Bool := none
  idType : Option String := none
  timestamps : Option Bool := none
  softDelete : Option Bool := none
  tableName : Option String := none
  translations : Option Bool := none
  authenticatable : Option Bool := none
  indexes : Option (List IndexSnap) := none
  deriving DecidableEq, Repr

/-- The raw loaded schema as typed at `versionService.ts` line 109:
`{ name; kind?; properties?; options?; values? }`. -/
structure RawSchema where
  name : String
  kind : Option String := none
  properties : Option (List (String × RawProp)) := none
  options : Option RawOptions := none
  values : Option (List String) := none
  deriving DecidableEq, Repr

/-- `VersionSchemaSnapshot`: what `schemasToSnapshot` builds at lines 154-160,
plus the optional display fields that `snapshotToYaml` (lines 332-336) also
reads from snapshots; `schemasToSnapshot` never sets those, so they default to
`none`. -/
structure SchemaSnap where
  name : String
  kind : String
  displayName : Option String := none
  singular : Option String := none
  plural : Option String := none
  titleIndex : Option String := none
  group : Option String := none
  properties : Option (List (String × PropSnap)) := none
  values : Option (List String) := none
  options : Option SnapOptions := none
  deriving DecidableEq, Repr

/-- Truthiness of an optional string (JavaScript: `undefined` and `''` are
falsy, any other string truthy). -/
def strTruthy : Option String → Bool
  | none => false
  | some s => !(s == "")

/-- The `indexSnapshots` map at lines 125-130: copy `columns`, copy
`unique`/`name`/`type` when defined. -/
def indexEntryToSnapshot (idx : IndexSnap) : IndexSnap :=
  { columns := idx.columns
    unique := idx.unique
    name := idx.name
    type := idx.type }

/-- Helper for `uniqueAsIndexes`: the running index of the source's
`map((cols, i) => ...)` callback. -/
def uniqueAsIndexesFrom (i : Nat) : List (List String) → List IndexSnap
  | [] => []
  | cols :: rest =>
      { columns := cols
        unique := some true
        name := some ("unique_" ++ toString i)
        type := none } :: uniqueAsIndexesFrom (i + 1) rest

/-- The `uniqueAsIndexes` map at lines 133-138: legacy `unique` constraint
number `i` becomes a synthetic unique index named `unique_<i>`. -/
def uniqueAsIndexes (rawUnique : List (List String)) : List IndexSnap :=
  uniqueAsIndexesFrom 0 rawUnique

/-- `allIndexes` at line 141: explicit index snapshots followed by the
synthetic unique indexes (each side `[]` when the raw key is absent). -/
def allIndexesOf (opts : Option RawOptions) : List IndexSnap :=
  ((opts.bind (·.indexes)).map (·.map indexEntryToSnapshot)).getD []
    ++ ((opts.bind (·.unique)).map uniqueAsIndexes).getD []

/-- `snapshotOptions` as built at lines 144-152: only non-default values are
stored. -/
def snapshotOptionsOf (opts : Option RawOptions) (allIndexes : List IndexSnap) :
    SnapOptions :=
  { id := if (opts.bind (·.id)) = some false then some false else none
    idType :=
      if strTruthy (opts.bind (·.idType)) ∧ (opts.bind (·.idType)) ≠ some "BigInt"
      then opts.bind (·.idType) else none
    timestamps := if (opts.bind (·.timestamps)) = some false then some false else none
    softDelete := if (opts.bind (·.softDelete)) = some true then some true else none
    tableName := if strTruthy (opts.bind (·.tableName)) then opts.bind (·.tableName) else none
    translations := if (opts.bind (·.translations)) = some true then some true else none
    authenticatable :=
      if (opts.bind (·.authenticatable)) = some true then some true else none
    indexes := if allIndexes.length > 0 then some allIndexes else none }

/-- `snapshotOptions` has no keys: every field was left out. -/
def SnapOptions.isEmptyRec (o : SnapOptions) : Bool :=
  o.id.isNone && o.idType.isNone && o.timestamps.isNone && o.softDelete.isNone &&
  o.tableName.isNone && o.translations.isNone && o.authenticatable.isNone &&
  o.indexes.isNone

/-- The body of the `schemasToSnapshot` loop (lines 113-160) for one schema. -/
def schemaToSnap (schema : RawSchema) : SchemaSnap :=
  let properties := (schema.properties.getD []).map fun e => (e.1, propertyToSnapshot e.2)
  let allIndexes := allIndexesOf schema.options
  let snapshotOptions := snapshotOptionsOf schema.options allIndexes
  { name := schema.name
    kind := schema.kind.getD "object"
    properties := if properties.length > 0 then some properties else none
    values := schema.values
    options := if snapshotOptions.isEmptyRec then none else some snapshotOptions }

/-- `schemasToSnapshot` (lines 108-164): normalize each entry of the loaded
schema record, keyed by the same name. -/
def schemasToSnapshot (schemas : List (String × RawSchema)) :
    List (String × SchemaSnap) :=
  schemas.map fun e => (e.1, schemaToSnap e.2)

/-! ## Writing a snapshot back to disk (`snapshotToYaml`, lines 294-377)

A written schema file is modelled by the structured document the source
builds and hands to `stringify`; parsing the file recovers that document. -/

/-- The structured document `snapshotToYaml` builds for one schema file:
optional `kind` and display keys, optional `properties` record (parsed
property entries carry exactly the keys `propertySnapshotToYaml` wrote, so
`extra` is empty), optional `values`, optional `options` record (which never
contains a legacy `unique` key). -/
structure YamlDoc where
  kind : Option String := none
  displayName : Option String := none
  singular : Option String := none
  plural : Option String := none
  titleIndex : Option String := none
  group : Option String := none
  properties : Option (List (String × RawProp)) := none
  values : Option (List String) := none
  options : Option RawOptions := none
  deriving DecidableEq, Repr

/-- `propertySnapshotToYaml` (lines 294-322): `type` plus every defined
attribute, nothing else — so, read back as a raw property, `extra = []`. -/
def propertySnapshotToYaml (prop : PropSnap) : RawProp :=
  { type := prop.type
    displayName := prop.displayName
    description := prop.description
    nullable := prop.nullable
    unique := prop.unique
    default := prop.default
    length := prop.length
    unsigned := prop.unsigned
    precision := prop.precision
    scale := prop.scale
    enum := prop.enum
    relation := prop.relation
    target := prop.target
    targets := prop.targets
    morphName := prop.morphName
    onDelete := prop.onDelete
    onUpdate := prop.onUpdate
    mappedBy := prop.mappedBy
    inversedBy := prop.inversedBy
    joinTable := prop.joinTable
    owning := prop.owning
    extra := [] }

/-- The `opts` record built inside `snapshotToYaml` (lines 353-374): the same
non-default elision as in normalization, and `indexes` copied (the index map
at lines 364-369 copies `columns` and each defined key, i.e. is the
identity on our index records). -/
def snapshotOptionsToYaml (o : SnapOptions) : RawOptions :=
  { id := if o.id = some false then some false else none
    idType :=
      if strTruthy o.idType ∧ o.idType ≠ some "BigInt" then o.idType else none
    timestamps := if o.timestamps = some false then some false else none
    softDelete := if o.softDelete = some true then some true else none
    tableName := if strTruthy o.tableName then o.tableName else none
    translations := if o.translations = some true then some true else none
    authenticatable := if o.authenticatable = some true then some true else none
    indexes :=
      match o.indexes with
      | some idxs => if idxs.length > 0 then some (idxs.map indexEntryToSnapshot) else none
      | none => none
    unique := none }

/-- The raw options record has no keys at all. -/
def RawOptions.isEmptyRec (o : RawOptions) : Bool :=
  o.id.isNone && o.idType.isNone && o.timestamps.isNone && o.softDelete.isNone &&
  o.tableName.isNone && o.translations.isNone && o.authenticatable.isNone &&
  o.indexes.isNone && o.unique.isNone

/-- `snapshotToYaml` (lines 327-377): `kind` is written only when it is
`'enum'`; display keys when truthy; `properties` when non-empty; `values`
when non-empty; `options` when the re-elided record has keys. -/
def snapshotToYaml (snapshot : SchemaSnap) : YamlDoc :=
  { kind := if snapshot.kind = "enum" then some "enum" else none
    displayName := if strTruthy snapshot.displayName then snapshot.displayName else none
    singular := if strTruthy snapshot.singular then snapshot.singular else none
    plural := if strTruthy snapshot.plural then snapshot.plural else none
    titleIndex := if strTruthy snapshot.titleIndex then snapshot.titleIndex else none
    group := if strTruthy snapshot.group then snapshot.group else none
    properties :=
      match snapshot.properties with
      | some props =>
          if props.length > 0
          then some (props.map fun e => (e.1, propertySnapshotToYaml e.2))
          else none
      | none => none
    values :=
      match snapshot.values with
      | some vs => if vs.length > 0 then some vs else none
      | none => none
    options :=
      match snapshot.options with
      | some o =>
          let opts := snapshotOptionsToYaml o
          if opts.isEmptyRec then none else some opts
      | none => none }

/-- Modelled from the spec: the external schema loader (`loadSchemas`,
`@famgia/omnify-core`, out of scope per §1/§6) returns a mapping from schema
name to raw schema; a schema file `<name>.yaml` parses to the document that
was written, keyed and named by the file's base name. This turns a parsed
`YamlDoc` into the raw-schema shape the normalizer consumes (line 109). -/
def rawOfDoc (name : String) (d : YamlDoc) : RawSchema :=
  { name := name
    kind := d.kind
    properties := d.properties
    options := d.options
    values := d.values }

/-! ## Version store state and the service operations

The version store itself lives in `@famgia/omnify-core`; the service module
only observes it through `readLatestVersion`, `listVersions`, `readVersion`,
`diffVersions`, `computeSnapshotDiff` and `createVersion`.  The store is
modelled from the spec (§4.3); the diff engine is kept abstract as a function
parameter `diffFn`, since no claim depends on its internals. -/

/-- The whole-collection snapshot: schema name to schema snapshot. -/
abbrev Snapshot := List (String × SchemaSnap)

/-- A diff-engine change record; the claims only inspect `action` and
`schema`. -/
structure Change where
  action : String
  schema : String
  deriving DecidableEq, Repr

/-- A persisted version record (spec §3 `VersionFile`, fields the service
reads). -/
structure VFile where
  version : Nat
  snapshot : Snapshot
  changes : List Change := []
  migration : Option String := none
  deriving DecidableEq, Repr

/-- Modelled from the spec: the Version Store (§4.3), a directory of numbered
immutable versions, listed ascending. -/
structure StoreSt where
  versions : List VFile
  deriving DecidableEq, Repr

/-- Modelled from the spec: `readLatestVersion` returns the highest-numbered
(last) version, or none when the store is empty (§4.3). -/
def readLatest (s : StoreSt) : Option VFile :=
  s.versions.getLast?

/-- Modelled from the spec: the store's `createVersion` allocates
`1 + current max` (1 on an empty store), appends the new immutable version,
and evicts the oldest versions beyond the retention cap of 100 set by
`initVersionStore` (`versionService.ts` line 27). -/
def storeCreateVersion (s : StoreSt) (snap : Snapshot) (changes : List Change)
    (mig : String) : VFile × StoreSt :=
  let n := (s.versions.map (·.version)).foldr max 0 + 1
  let vf : VFile := { version := n, snapshot := snap, changes := changes, migration := some mig }
  let vs := s.versions ++ [vf]
  (vf, ⟨if vs.length > 100 then vs.drop (vs.length - 100) else vs⟩)

/-- The module-level mutable state of `versionService.ts` (lines 20-21):
`store` and `schemasDir`, both null until `initVersionStore` runs. -/
structure SvcState where
  store : Option StoreSt
  schemasDir : Option String
  deriving DecidableEq, Repr

/-- The state before `initVersionStore` has been called (lines 20-21). -/
def uninitState : SvcState := ⟨none, none⟩

/-- Error thrown by `getStore` (line 36). -/
def storeNotInitMsg : String :=
  "Version store not initialized. Call initVersionStore first."

/-- Error thrown when `schemasDir` is null (lines 191, 242, 384). -/
def dirNotInitMsg : String := "Schemas directory not initialized"

/-- `listVersions` (lines 44-46); the summary projection is modelled from the
spec (§3 `VersionSummary`). -/
structure VSummary where
  version : Nat
  schemaCount : Nat
  changeCount : Nat
  deriving DecidableEq, Repr

/-- `listVersions` (lines 44-46): `getStore().listVersions()`. -/
def listVersionsSvc (st : SvcState) : Except String (List VSummary) :=
  match st.store with
  | none => .error storeNotInitMsg
  | some s =>
      .ok (s.versions.map fun v => ⟨v.version, v.snapshot.length, v.changes.length⟩)

/-- `getVersion` (lines 51-53): `getStore().readVersion(version)`; a missing
number is a `none` result, not an error (spec §4.3). -/
def getVersionSvc (st : SvcState) (version : Nat) : Except String (Option VFile) :=
  match st.store with
  | none => .error storeNotInitMsg
  | some s => .ok (s.versions.find? fun v => v.version = version)

/-- `getLatestVersion` (lines 58-60): `getStore().readLatestVersion()`. -/
def getLatestVersionSvc (st : SvcState) : Except String (Option VFile) :=
  match st.store with
  | none => .error storeNotInitMsg
  | some s => .ok (readLatest s)

/-- `diffVersions` (lines 65-67): read both versions, run the diff engine;
not-found when either is missing (spec §4.3). -/
def diffVersionsSvc (diffFn : Snapshot → Snapshot → List Change) (st : SvcState)
    (fromVersion toVersion : Nat) : Except String (Option (List Change)) :=
  match st.store with
  | none => .error storeNotInitMsg
  | some s =>
      match s.versions.find? (fun v => v.version = fromVersion),
            s.versions.find? (fun v => v.version = toVersion) with
      | some va, some vb => .ok (some (diffFn va.snapshot vb.snapshot))
      | _, _ => .ok none

/-- The change list both `createVersion` (lines 204-213) and
`getPendingChanges` (lines 254-271) compute: with no latest version, one
`schema_added` per current schema; otherwise the diff engine's output on
(latest snapshot, current snapshot). -/
def computedChanges (diffFn : Snapshot → Snapshot → List Change)
    (store : StoreSt) (cur : List (String × RawSchema)) : List Change :=
  match readLatest store with
  | none => (schemasToSnapshot cur).map fun e => ⟨"schema_added", e.1⟩
  | some latest => diffFn latest.snapshot (schemasToSnapshot cur)

/-- `PendingChangesResult` (lines 169-175). -/
structure PendingResult where
  hasChanges : Bool
  changes : List Change
  currentSchemaCount : Nat
  previousSchemaCount : Nat
  latestVersion : Option Nat
  deriving DecidableEq, Repr

/-- `getPendingChanges` (lines 240-280); the current schemas `cur` stand for
`loadSchemas(schemasDir)`, the external loader's result. -/
def getPendingChangesSvc (diffFn : Snapshot → Snapshot → List Change)
    (st : SvcState) (cur : List (String × RawSchema)) :
    Except String PendingResult :=
  match st.schemasDir with
  | none => .error dirNotInitMsg
  | some _ =>
      match st.store with
      | none => .error storeNotInitMsg
      | some store =>
          let currentSnapshot := schemasToSnapshot cur
          match readLatest store with
          | none =>
              let changes := currentSnapshot.map fun e => (⟨"schema_added", e.1⟩ : Change)
              .ok { hasChanges := decide (changes.length > 0)
                    changes := changes
                    currentSchemaCount := currentSnapshot.length
                    previousSchemaCount := 0
                    latestVersion := none }
          | some latest =>
              let changes := diffFn latest.snapshot currentSnapshot
              .ok { hasChanges := decide (changes.length > 0)
                    changes := changes
                    currentSchemaCount := currentSnapshot.length
                    previousSchemaCount := latest.snapshot.length
                    latestVersion := some latest.version }

/-- `CreateVersionResult` (lines 180-184). -/
structure CreateResult where
  version : Nat
  migration : String
  changes : List Change
  deriving DecidableEq, Repr

/-- `createVersion` (lines 189-235); `mig` stands for the timestamp-derived
migration name (line 220-221, external clock).  Returns the result together
with the service state afterwards, unchanged on every error path. -/
def createVersionSvc (diffFn : Snapshot → Snapshot → List Change)
    (st : SvcState) (cur : List (String × RawSchema)) (mig : String) :
    Except String CreateResult × SvcState :=
  match st.schemasDir with
  | none => (.error dirNotInitMsg, st)
  | some _ =>
      match st.store with
      | none => (.error storeNotInitMsg, st)
      | some store =>
          let currentSnapshot := schemasToSnapshot cur
          let changes := computedChanges diffFn store cur
          if changes.length = 0 then
            (.error "No changes to create version", st)
          else
            let (vf, store2) := storeCreateVersion store currentSnapshot changes mig
            (.ok { version := vf.version
                   migration := vf.migration.getD mig
                   changes := vf.changes },
             { st with store := some store2 })

/-! ## The on-disk schema directory and `discardChanges` (lines 382-430)

A directory entry name is modelled as a base plus an extension tag: the
source classifies names by `endsWith('.yaml') || endsWith('.yml')` and strips
the matching suffix with `replace(/\.ya?ml$/, '')`, which is exactly this
decomposition (the base may itself contain dots). -/

/-- File-name extension as the source distinguishes it. -/
inductive FExt where
  | yaml
  | yml
  | other (s : String)
  deriving DecidableEq, Repr

/-- `f.endsWith('.yaml') || f.endsWith('.yml')` (line 399). -/
def FExt.isYamlish : FExt → Bool
  | .yaml => true
  | .yml => true
  | .other _ => false

/-- A directory entry name. -/
structure FileName where
  base : String
  ext : FExt
  deriving DecidableEq, Repr

/-- The schemas directory: entry name to parsed file content. -/
abbrev FS := List (FileName × YamlDoc)

/-- Look a file up in the directory. -/
def fsGet : FS → FileName → Option YamlDoc
  | [], _ => none
  | (k, v) :: rest, f => if k = f then some v else fsGet rest f

/-- Drop every entry named `k` from the directory. -/
def fsRemove : FS → FileName → FS
  | [], _ => []
  | e :: rest, k => if e.1 = k then fsRemove rest k else e :: fsRemove rest k

/-- `writeFile` (line 415): create or overwrite one file. -/
def fsWrite (fs : FS) (k : FileName) (v : YamlDoc) : FS :=
  fsRemove fs k ++ [(k, v)]

/-- `unlink` (line 424): remove one file. -/
def fsErase (fs : FS) (k : FileName) : FS :=
  fsRemove fs k

/-- The restore loop of `discardChanges` (lines 406-417): write
`<name>.yaml` for every snapshot entry, counting `restored`. -/
def restoreAll : List (String × SchemaSnap) → FS → FS × Nat
  | [], fs => (fs, 0)
  | (n, s) :: rest, fs =>
      let fs1 := fsWrite fs ⟨n, .yaml⟩ (snapshotToYaml s)
      let r := restoreAll rest fs1
      (r.1, r.2 + 1)

/-- The delete loop of `discardChanges` (lines 420-427): delete every listed
file whose base name is not a snapshot key, counting `deleted`. -/
def deleteStale (snapKeys : List String) : List FileName → FS → FS × Nat
  | [], fs => (fs, 0)
  | f :: rest, fs =>
      if f.base ∈ snapKeys then deleteStale snapKeys rest fs
      else
        let fs1 := fsErase fs f
        let r := deleteStale snapKeys rest fs1
        (r.1, r.2 + 1)

/-- `discardChanges` (lines 382-430): fails before `initVersionStore` and when
no latest version exists; otherwise writes every snapshot schema to
`<name>.yaml`, then deletes the yaml/yml files (listed before the writes)
whose base name is not in the snapshot.  Returns
`(restored, deleted, directory afterwards)`. -/
def discardChangesSvc (st : SvcState) (fs : FS) : Except String (Nat × Nat × FS) :=
  match st.schemasDir with
  | none => .error dirNotInitMsg
  | some _ =>
      match st.store with
      | none => .error storeNotInitMsg
      | some store =>
          match readLatest store with
          | none => .error "No version to restore from. Cannot discard changes."
          | some latest =>
              let snapshot := latest.snapshot
              let snapshotSchemaNames := snapshot.map (·.1)
              let yamlFiles := (fs.map (·.1)).filter fun f => f.ext.isYamlish
              let r1 := restoreAll snapshot fs
              let r2 := deleteStale snapshotSchemaNames yamlFiles r1.1
              .ok (r1.2, r2.2, r2.1)

/-! ## Concrete inputs used to exercise the theorems -/

/-- A raw pivot schema as the loader may return it
(`kind: 'object' | 'enum' | 'partial' | 'pivot'`, `src/shared/types.ts`
line 29). -/
def pivotRaw : RawSchema := { name := "OrderProduct", kind := some "pivot" }

/-- Its normalized snapshot: `schemasToSnapshot` keeps `kind = "pivot"`
(line 156). -/
def pivotSnap : SchemaSnap := schemaToSnap pivotRaw

/-- A service state whose latest version holds exactly the pivot schema. -/
def pivotState : SvcState :=
  ⟨some ⟨[{ version := 1, snapshot := [("OrderProduct", pivotSnap)] }]⟩,
   some "schemas"⟩

/-- Raw options with every elidable option set off its default. -/
def offDefaultOptions : RawOptions :=
  { id := some false
    idType := some "UUID"
    timestamps := some false
    softDelete := some true
    translations := some true
    authenticatable := some true }

/-- A raw schema carrying `offDefaultOptions`. -/
def offDefaultRaw : RawSchema := { name := "User", options := some offDefaultOptions }

/-- The snapshot options `offDefaultRaw` normalizes to. -/
def offDefaultSnapOptions : SnapOptions :=
  { id := some false
    idType := some "UUID"
    timestamps := some false
    softDelete := some true
    tableName := none
    translations := some true
    authenticatable := some true
    indexes := none }

/-- One explicit index entry. -/
def mergeIdxsC : List IndexSnap := [{ columns := ["a"] }]

/-- Two legacy unique constraints. -/
def mergeUniqsC : List (List String) := [["b"], ["c", "d"]]

/-- Raw options carrying both explicit indexes and legacy unique lists. -/
def mergeOptsC : RawOptions := { indexes := some mergeIdxsC, unique := some mergeUniqsC }

/-- A raw schema carrying `mergeOptsC`. -/
def mergeRawC : RawSchema := { name := "Order", options := some mergeOptsC }

/-- A minimal raw schema. -/
def userRaw : RawSchema := { name := "User" }

/-- Its snapshot. -/
def userSnap : SchemaSnap := schemaToSnap userRaw

/-- A store whose single version holds the `User` schema. -/
def userStore : StoreSt := ⟨[{ version := 1, snapshot := [("User", userSnap)] }]⟩

/-- An empty parsed schema document. -/
def emptyDoc : YamlDoc := {}

/-! ## Helper lemmas -/

/-- The explicit-index map at lines 125-130 copies every field, so it is the
identity on index records. -/
theorem indexEntryToSnapshot_eq_self (idx : IndexSnap) :
    indexEntryToSnapshot idx = idx := rfl

/-- The restore loop writes once per snapshot entry. -/
theorem restoreAll_count (entries : List (String × SchemaSnap)) (fs : FS) :
    (restoreAll entries fs).2 = entries.length := by
  induction entries generalizing fs with
  | nil => rfl
  | cons e rest ih => simp [restoreAll, ih]

/-- The delete loop removes exactly the listed files whose base name is not a
snapshot key. -/
theorem deleteStale_count (snapKeys : List String) (files : List FileName) (fs : FS) :
    (deleteStale snapKeys files fs).2 =
      (files.filter fun f => decide (f.base ∉ snapKeys)).length := by
  induction files generalizing fs with
  | nil => rfl
  | cons f rest ih =>
      by_cases h : f.base ∈ snapKeys <;> simp [deleteStale, h, ih]

/-! ## Claim theorems -/

/-- C6: `propertyToSnapshot` copies `type`, carries each of the twenty
documented optional attributes exactly when it is defined on the input, with
the value copied unchanged, and ignores every other key of the raw property
(`extra`). -/
theorem propertyToSnapshot_copies_defined_fields (p : RawProp) :
    (propertyToSnapshot p).type = p.type ∧
    (propertyToSnapshot p).displayName = p.displayName ∧
    (propertyToSnapshot p).description = p.description ∧
    (propertyToSnapshot p).nullable = p.nullable ∧
    (propertyToSnapshot p).unique = p.unique ∧
    (propertyToSnapshot p).default = p.default ∧
    (propertyToSnapshot p).length = p.length ∧
    (propertyToSnapshot p).unsigned = p.unsigned ∧
    (propertyToSnapshot p).precision = p.precision ∧
    (propertyToSnapshot p).scale = p.scale ∧
    (propertyToSnapshot p).enum = p.enum ∧
    (propertyToSnapshot p).relation = p.relation ∧
    (propertyToSnapshot p).target = p.target ∧
    (propertyToSnapshot p).targets = p.targets ∧
    (propertyToSnapshot p).morphName = p.morphName ∧
    (propertyToSnapshot p).onDelete = p.onDelete ∧
    (propertyToSnapshot p).onUpdate = p.onUpdate ∧
    (propertyToSnapshot p).mappedBy = p.mappedBy ∧
    (propertyToSnapshot p).inversedBy = p.inversedBy ∧
    (propertyToSnapshot p).joinTable = p.joinTable ∧
    (propertyToSnapshot p).owning = p.owning ∧
    propertyToSnapshot { p with extra := [] } = propertyToSnapshot p :=
  ⟨rfl, rfl, rfl, rfl, rfl, rfl, rfl, rfl, rfl, rfl, rfl,
   rfl, rfl, rfl, rfl, rfl, rfl, rfl, rfl, rfl, rfl, rfl⟩

/-- C9: with an initialized service, an empty version store and an empty
current schema collection, `getPendingChanges` succeeds and reports no
changes at all. -/
theorem getPendingChanges_empty_store_empty_schemas
    (diffFn : Snapshot → Snapshot → List Change) (d : String) :
    getPendingChangesSvc diffFn ⟨some ⟨[]⟩, some d⟩ [] =
      .ok { hasChanges := false
            changes := []
            currentSchemaCount := 0
            previousSchemaCount := 0
            latestVersion := none } := rfl

/-- C8: before `initVersionStore` has run (both module-level variables still
null), every exported operation fails with its "not initialized" error, and
the service state is left untouched. -/
theorem all_operations_fail_before_init
    (diffFn : Snapshot → Snapshot → List Change) (n a b : Nat)
    (cur : List (String × RawSchema)) (mig : String) (fs : FS) :
    listVersionsSvc uninitState = .error storeNotInitMsg ∧
    getVersionSvc uninitState n = .error storeNotInitMsg ∧
    getLatestVersionSvc uninitState = .error storeNotInitMsg ∧
    diffVersionsSvc diffFn uninitState a b = .error storeNotInitMsg ∧
    getPendingChangesSvc diffFn uninitState cur = .error dirNotInitMsg ∧
    createVersionSvc diffFn uninitState cur mig = (.error dirNotInitMsg, uninitState) ∧
    discardChangesSvc uninitState fs = .error dirNotInitMsg :=
  ⟨rfl, rfl, rfl, rfl, rfl, rfl, rfl⟩

/-- C1: the restore round-trip is NOT exact for every schema kind.  A pivot
schema is reachable (`schemasToSnapshot` keeps `kind = "pivot"`), but
`snapshotToYaml` writes a `kind` key only for enums, so after a successful
`discardChanges` the restored file re-normalizes with `kind = "object"` — a
different `SchemaSnap`, which a subsequent `getPendingChanges` diff sees as a
change. -/
theorem discard_roundtrip_loses_pivot_kind :
    pivotSnap.kind = "pivot" ∧
    discardChangesSvc pivotState [] =
      .ok (1, 0, [(⟨"OrderProduct", FExt.yaml⟩, snapshotToYaml pivotSnap)]) ∧
    (schemaToSnap (rawOfDoc "OrderProduct" (snapshotToYaml pivotSnap))).kind
      = "object" ∧
    schemaToSnap (rawOfDoc "OrderProduct" (snapshotToYaml pivotSnap)) ≠ pivotSnap := by
  refine ⟨rfl, rfl, rfl, ?_⟩
  decide

/-- Unfolding lemma: the options field `schemaToSnap` produces. -/
theorem schemaToSnap_options (raw : RawSchema) :
    (schemaToSnap raw).options =
      (if (snapshotOptionsOf raw.options (allIndexesOf raw.options)).isEmptyRec
       then none
       else some (snapshotOptionsOf raw.options (allIndexesOf raw.options))) := rfl

/-- Each scalar key of `snapshotOptions` is stored only with the incoming,
non-default value. -/
theorem snapshotOptionsOf_elides (opts : Option RawOptions) (allIdx : List IndexSnap) :
    ((snapshotOptionsOf opts allIdx).id.isSome →
       (snapshotOptionsOf opts allIdx).id = opts.bind (·.id) ∧
       (snapshotOptionsOf opts allIdx).id ≠ some true) ∧
    ((snapshotOptionsOf opts allIdx).idType.isSome →
       (snapshotOptionsOf opts allIdx).idType = opts.bind (·.idType) ∧
       (snapshotOptionsOf opts allIdx).idType ≠ some "BigInt") ∧
    ((snapshotOptionsOf opts allIdx).timestamps.isSome →
       (snapshotOptionsOf opts allIdx).timestamps = opts.bind (·.timestamps) ∧
       (snapshotOptionsOf opts allIdx).timestamps ≠ some true) ∧
    ((snapshotOptionsOf opts allIdx).softDelete.isSome →
       (snapshotOptionsOf opts allIdx).softDelete = opts.bind (·.softDelete) ∧
       (snapshotOptionsOf opts allIdx).softDelete ≠ some false) ∧
    ((snapshotOptionsOf opts allIdx).translations.isSome →
       (snapshotOptionsOf opts allIdx).translations = opts.bind (·.translations) ∧
       (snapshotOptionsOf opts allIdx).translations ≠ some false) ∧
    ((snapshotOptionsOf opts allIdx).authenticatable.isSome →
       (snapshotOptionsOf opts allIdx).authenticatable = opts.bind (·.authenticatable) ∧
       (snapshotOptionsOf opts allIdx).authenticatable ≠ some false) := by
  refine ⟨?_, ?_, ?_, ?_, ?_, ?_⟩ <;> simp only [snapshotOptionsOf]
  · by_cases h : opts.bind (·.id) = some false <;> simp [h]
  · by_cases h : strTruthy (opts.bind (·.idType)) ∧ opts.bind (·.idType) ≠ some "BigInt" <;>
      simp [h]
  · by_cases h : opts.bind (·.timestamps) = some false <;> simp [h]
  · by_cases h : opts.bind (·.softDelete) = some true <;> simp [h]
  · by_cases h : opts.bind (·.translations) = some true <;> simp [h]
  · by_cases h : opts.bind (·.authenticatable) = some true <;> simp [h]

/-- C5: in every snapshot produced by normalization, each of the option keys
id, idType, timestamps, softDelete, translations, authenticatable is present
only with the incoming value, and only when that value differs from the
documented default (id=true, idType=BigInt, timestamps=true, softDelete=false,
translations=false, authenticatable=false); a schema whose input options are
exactly those defaults gets no options map at all. -/
theorem snapshot_options_elide_defaults :
    (∀ (schemas : List (String × RawSchema)) (n : String) (snap : SchemaSnap)
       (o : SnapOptions),
       (n, snap) ∈ schemasToSnapshot schemas →
       snap.options = some o →
       ∃ raw : RawSchema, (n, raw) ∈ schemas ∧
         (o.id.isSome → o.id = raw.options.bind (·.id) ∧ o.id ≠ some true) ∧
         (o.idType.isSome →
            o.idType = raw.options.bind (·.idType) ∧ o.idType ≠ some "BigInt") ∧
         (o.timestamps.isSome →
            o.timestamps = raw.options.bind (·.timestamps) ∧
            o.timestamps ≠ some true) ∧
         (o.softDelete.isSome →
            o.softDelete = raw.options.bind (·.softDelete) ∧
            o.softDelete ≠ some false) ∧
         (o.translations.isSome →
            o.translations = raw.options.bind (·.translations) ∧
            o.translations ≠ some false) ∧
         (o.authenticatable.isSome →
            o.authenticatable = raw.options.bind (·.authenticatable) ∧
            o.authenticatable ≠ some false)) ∧
    (∀ raw : RawSchema,
       raw.options = some { id := some true
                            idType := some "BigInt"
                            timestamps := some true
                            softDelete := some false
                            tableName := none
                            translations := some false
                            authenticatable := some false
                            indexes := none
                            unique := none } →
       (schemaToSnap raw).options = none) := by
  constructor
  · intro schemas n snap o hmem hopt
    obtain ⟨e, he, heq⟩ := List.mem_map.1 hmem
    obtain ⟨h1, h2⟩ := Prod.mk.injEq .. ▸ heq
    refine ⟨e.2, ?_, ?_⟩
    · have : (n, e.2) = e := by rw [← h1]
      rwa [this]
    · rw [← h2] at hopt
      rw [schemaToSnap_options] at hopt
      split at hopt
      · exact absurd hopt (by simp)
      · obtain rfl : snapshotOptionsOf e.2.options (allIndexesOf e.2.options) = o :=
          Option.some.injEq .. ▸ hopt
        exact snapshotOptionsOf_elides e.2.options (allIndexesOf e.2.options)
  · intro raw hopt
    rw [schemaToSnap_options, hopt]
    rfl

/-- C5 witness: a schema with all six options off their default keeps each of
them, with the incoming value. -/
theorem snapshot_options_elide_defaults_witness :
    ∃ raw : RawSchema, ("User", raw) ∈ [("User", offDefaultRaw)] ∧
      (offDefaultSnapOptions.id.isSome →
         offDefaultSnapOptions.id = raw.options.bind (·.id) ∧
         offDefaultSnapOptions.id ≠ some true) ∧
      (offDefaultSnapOptions.idType.isSome →
         offDefaultSnapOptions.idType = raw.options.bind (·.idType) ∧
         offDefaultSnapOptions.idType ≠ some "BigInt") ∧
      (offDefaultSnapOptions.timestamps.isSome →
         offDefaultSnapOptions.timestamps = raw.options.bind (·.timestamps) ∧
         offDefaultSnapOptions.timestamps ≠ some true) ∧
      (offDefaultSnapOptions.softDelete.isSome →
         offDefaultSnapOptions.softDelete = raw.options.bind (·.softDelete) ∧
         offDefaultSnapOptions.softDelete ≠ some false) ∧
      (offDefaultSnapOptions.translations.isSome →
         offDefaultSnapOptions.translations = raw.options.bind (·.translations) ∧
         offDefaultSnapOptions.translations ≠ some false) ∧
      (offDefaultSnapOptions.authenticatable.isSome →
         offDefaultSnapOptions.authenticatable = raw.options.bind (·.authenticatable) ∧
         offDefaultSnapOptions.authenticatable ≠ some false) :=
  snapshot_options_elide_defaults.1 [("User", offDefaultRaw)] "User"
    (schemaToSnap offDefaultRaw) offDefaultSnapOptions (by decide) rfl

/-- C3: whenever the computed change list is empty, `createVersion` fails with
"No changes to create version" and the service state — in particular the
store — is unchanged; the change list is empty in particular when the diff
engine is idempotent and the current snapshot equals the latest one, and when
the store is empty and there are no current schemas. -/
theorem createVersion_no_changes_fails
    (diffFn : Snapshot → Snapshot → List Change) (store : StoreSt) (d : String)
    (cur : List (String × RawSchema)) (mig : String) :
    (computedChanges diffFn store cur = [] →
       createVersionSvc diffFn ⟨some store, some d⟩ cur mig =
         (.error "No changes to create version", ⟨some store, some d⟩)) ∧
    ((∀ S, diffFn S S = []) → ∀ v, readLatest store = some v →
       schemasToSnapshot cur = v.snapshot → computedChanges diffFn store cur = []) ∧
    (store.versions = [] → cur = [] → computedChanges diffFn store cur = []) := by
  refine ⟨fun h => ?_, fun hid v hv hsnap => ?_, fun hs hc => ?_⟩
  · simp [createVersionSvc, h]
  · simp [computedChanges, hv, hsnap, hid]
  · simp [computedChanges, readLatest, hs, hc, schemasToSnapshot]

/-- C3 witness: on an empty store with no current schemas, `createVersion`
fails and leaves the state alone. -/
theorem createVersion_no_changes_fails_witness :
    createVersionSvc (fun _ _ => []) ⟨some ⟨[]⟩, some "schemas"⟩ [] "20260101_m" =
      (.error "No changes to create version", ⟨some ⟨[]⟩, some "schemas"⟩) :=
  (createVersion_no_changes_fails (fun _ _ => []) ⟨[]⟩ "schemas" [] "20260101_m").1 rfl

/-- C4: with no latest version, `getPendingChanges` reports one
`schema_added` change per current schema carrying that schema's name,
`previousSchemaCount = 0`, `latestVersion = null`, and `hasChanges` is true
whenever at least one current schema exists. -/
theorem getPendingChanges_no_latest
    (diffFn : Snapshot → Snapshot → List Change) (store : StoreSt) (d : String)
    (cur : List (String × RawSchema)) (hlat : readLatest store = none) :
    getPendingChangesSvc diffFn ⟨some store, some d⟩ cur =
      .ok { hasChanges := decide (cur.length > 0)
            changes := cur.map fun e => ⟨"schema_added", e.1⟩
            currentSchemaCount := cur.length
            previousSchemaCount := 0
            latestVersion := none } ∧
    (cur ≠ [] → decide (cur.length > 0) = true) := by
  constructor
  · simp [getPendingChangesSvc, hlat, schemasToSnapshot, List.map_map, Function.comp]
  · intro h
    simp [List.length_pos, h]

/-- C4 witness: one current schema against an empty store yields a single
`schema_added` change and `hasChanges = true`. -/
theorem getPendingChanges_no_latest_witness :
    getPendingChangesSvc (fun _ _ => []) ⟨some ⟨[]⟩, some "schemas"⟩
        [("User", userRaw)] =
      .ok { hasChanges := true
            changes := [⟨"schema_added", "User"⟩]
            currentSchemaCount := 1
            previousSchemaCount := 0
            latestVersion := none } ∧
    ([("User", userRaw)] ≠ [] → true = true) :=
  getPendingChanges_no_latest (fun _ _ => []) ⟨[]⟩ "schemas" [("User", userRaw)] rfl

/-- The synthetic unique index at position `i`, counted from `k`. -/
theorem uniqueAsIndexesFrom_getElem (k : Nat) (l : List (List String)) (i : Nat) :
    (uniqueAsIndexesFrom k l)[i]? =
      l[i]?.map fun cols =>
        { columns := cols
          unique := some true
          name := some ("unique_" ++ toString (k + i))
          type := none } := by
  induction l generalizing k i with
  | nil => simp [uniqueAsIndexesFrom]
  | cons c rest ih =>
      cases i with
      | zero => simp [uniqueAsIndexesFrom]
      | succ j =>
          simp only [uniqueAsIndexesFrom, List.getElem?_cons_succ, ih (k + 1) j]
          have : k + 1 + j = k + (j + 1) := by omega
          rw [this]

/-- Explicit index entries pass through the snapshot map unchanged. -/
theorem map_indexEntryToSnapshot (l : List IndexSnap) :
    l.map indexEntryToSnapshot = l := by
  induction l with
  | nil => rfl
  | cons x xs ih => simp [ih, indexEntryToSnapshot_eq_self]

/-- C7: for every raw schema, normalization produces one indexes list — the
explicit `indexes` entries (an absent key contributing none) in their
original order, followed by the synthetic unique indexes, where legacy
constraint number `i` yields its column list, `unique = true` and name
`unique_<i>`; the snapshot carries an `indexes` option exactly when this
combined list is non-empty. -/
theorem indexes_merge (raw : RawSchema) :
    allIndexesOf raw.options =
      ((raw.options.bind (·.indexes)).getD []) ++
        uniqueAsIndexes ((raw.options.bind (·.unique)).getD []) ∧
    (∀ i : Nat, ∀ cols,
       ((raw.options.bind (·.unique)).getD [])[i]? = some cols →
       (uniqueAsIndexes ((raw.options.bind (·.unique)).getD []))[i]? =
         some { columns := cols
                unique := some true
                name := some ("unique_" ++ toString i)
                type := none }) ∧
    (schemaToSnap raw).options.bind (·.indexes) =
      (if allIndexesOf raw.options = [] then none
       else some (allIndexesOf raw.options)) := by
  refine ⟨?_, fun i cols hc => ?_, ?_⟩
  · cases hoi : raw.options.bind (·.indexes) <;>
      cases hou : raw.options.bind (·.unique) <;>
      simp [allIndexesOf, hoi, hou, map_indexEntryToSnapshot,
            uniqueAsIndexes, uniqueAsIndexesFrom]
  · rw [uniqueAsIndexes, uniqueAsIndexesFrom_getElem 0 _ i, hc]
    simp
  · rw [schemaToSnap_options]
    by_cases hA : allIndexesOf raw.options = []
    · rw [hA]
      split
      · simp
      · simp [snapshotOptionsOf]
    · have hlen : (allIndexesOf raw.options).length > 0 := List.length_pos.2 hA
      have hidxfield :
          (snapshotOptionsOf raw.options (allIndexesOf raw.options)).indexes =
            some (allIndexesOf raw.options) := by
        simp only [snapshotOptionsOf]
        exact if_pos hlen
      have hne :
          (snapshotOptionsOf raw.options (allIndexesOf raw.options)).isEmptyRec
            = false := by
        have hno :
            (snapshotOptionsOf raw.options (allIndexesOf raw.options)).indexes.isNone
              = false := by
          rw [hidxfield]
          rfl
        simp [SnapOptions.isEmptyRec, hno]
      rw [hne, if_neg hA]
      exact hidxfield

/-- C7 witness: one explicit index plus two legacy unique constraints merge
into explicit-then-synthetic order with `unique_0`, `unique_1` names. -/
theorem indexes_merge_witness :
    allIndexesOf mergeRawC.options =
      ((mergeRawC.options.bind (·.indexes)).getD []) ++
        uniqueAsIndexes ((mergeRawC.options.bind (·.unique)).getD []) ∧
    (uniqueAsIndexes ((mergeRawC.options.bind (·.unique)).getD []))[1]? =
      some { columns := ["c", "d"]
             unique := some true
             name := some "unique_1"
             type := none } ∧
    (schemaToSnap mergeRawC).options.bind (·.indexes) =
      (if allIndexesOf mergeRawC.options = [] then none
       else some (allIndexesOf mergeRawC.options)) :=
  ⟨(indexes_merge mergeRawC).1,
   (indexes_merge mergeRawC).2.1 1 ["c", "d"] rfl,
   (indexes_merge mergeRawC).2.2⟩
/-- Looking a name up after removing it finds nothing. -/
theorem fsGet_remove_self (fs : FS) (k : FileName) :
    fsGet (fsRemove fs k) k = none := by
  induction fs with
  | nil => rfl
  | cons e rest ih =>
      obtain ⟨k1, v1⟩ := e
      by_cases hek : k1 = k
      · simpa [fsRemove, if_pos hek] using ih
      · simp only [fsRemove, fsGet]
        rw [if_neg hek, fsGet, if_neg hek]
        exact ih

/-- Entries under a different name survive removing all entries named `k`. -/
theorem fsGet_remove_other (fs : FS) (k f : FileName) (h : f ≠ k) :
    fsGet (fsRemove fs k) f = fsGet fs f := by
  induction fs with
  | nil => rfl
  | cons e rest ih =>
      obtain ⟨k1, v1⟩ := e
      by_cases hek : k1 = k
      · have hef : ¬(k1 = f) := fun hc => h (hc ▸ hek)
        simp only [fsRemove]
        rw [if_pos hek, ih, fsGet, if_neg hef]
      · simp only [fsRemove]
        rw [if_neg hek]
        simp only [fsGet]
        by_cases hef : k1 = f
        · rw [if_pos hef, if_pos hef]
        · rw [if_neg hef, if_neg hef]
          exact ih

/-- Lookup distributes over appending directories. -/
theorem fsGet_append (l1 l2 : FS) (k : FileName) :
    fsGet (l1 ++ l2) k = (fsGet l1 k).elim (fsGet l2 k) some := by
  induction l1 with
  | nil => rfl
  | cons e rest ih =>
      obtain ⟨k1, v1⟩ := e
      by_cases hek : k1 = k
      · simp [fsGet, if_pos hek]
      · simp only [List.cons_append, fsGet]
        rw [if_neg hek, if_neg hek]
        exact ih

/-- A freshly written file reads back with the written content. -/
theorem fsGet_write_self (fs : FS) (k : FileName) (v : YamlDoc) :
    fsGet (fsWrite fs k v) k = some v := by
  rw [fsWrite, fsGet_append, fsGet_remove_self]
  simp [fsGet]

/-- Writing one file leaves every other file unchanged. -/
theorem fsGet_write_other (fs : FS) (k f : FileName) (v : YamlDoc) (h : f ≠ k) :
    fsGet (fsWrite fs k v) f = fsGet fs f := by
  have hkf : ¬(k = f) := fun hc => h hc.symm
  rw [fsWrite, fsGet_append, fsGet_remove_other fs k f h]
  cases fsGet fs f <;> simp [fsGet, hkf]

/-- Deleting one file leaves every other file unchanged. -/
theorem fsGet_erase_other (fs : FS) (k f : FileName) (h : f ≠ k) :
    fsGet (fsErase fs k) f = fsGet fs f :=
  fsGet_remove_other fs k f h

/-- The restore loop leaves every file it does not target unchanged. -/
theorem restoreAll_get_preserved (entries : List (String × SchemaSnap)) (fs : FS)
    (k : FileName) (h : ∀ e ∈ entries, (⟨e.1, FExt.yaml⟩ : FileName) ≠ k) :
    fsGet (restoreAll entries fs).1 k = fsGet fs k := by
  induction entries generalizing fs with
  | nil => rfl
  | cons e rest ih =>
      obtain ⟨n1, s1⟩ := e
      have hk : (⟨n1, FExt.yaml⟩ : FileName) ≠ k :=
        h (n1, s1) (List.mem_cons_self _ rest)
      calc fsGet (restoreAll ((n1, s1) :: rest) fs).1 k
          = fsGet (restoreAll rest (fsWrite fs ⟨n1, FExt.yaml⟩ (snapshotToYaml s1))).1 k := by
            simp [restoreAll]
        _ = fsGet (fsWrite fs ⟨n1, FExt.yaml⟩ (snapshotToYaml s1)) k :=
            ih _ fun x hx => h x (List.mem_cons_of_mem (n1, s1) hx)
        _ = fsGet fs k := fsGet_write_other fs _ k _ (Ne.symm hk)

/-- After the restore loop, each snapshot entry's `<name>.yaml` file holds its
restored content (snapshot keys are unique). -/
theorem restoreAll_get_written (entries : List (String × SchemaSnap)) (fs : FS)
    (n : String) (s : SchemaSnap) (hmem : (n, s) ∈ entries)
    (hnodup : (entries.map (·.1)).Nodup) :
    fsGet (restoreAll entries fs).1 ⟨n, FExt.yaml⟩ = some (snapshotToYaml s) := by
  induction entries generalizing fs with
  | nil => cases hmem
  | cons e rest ih =>
      obtain ⟨n1, s1⟩ := e
      rw [List.map_cons, List.nodup_cons] at hnodup
      rcases List.mem_cons.1 hmem with hhead | htail
      · obtain ⟨hn, hs⟩ := Prod.mk.injEq .. ▸ hhead
        subst hn hs
        have hrest : ∀ x ∈ rest, (⟨x.1, FExt.yaml⟩ : FileName) ≠ ⟨n, FExt.yaml⟩ := by
          intro x hx hc
          have hxn : x.1 = n := congrArg FileName.base hc
          exact hnodup.1 (hxn ▸ List.mem_map_of_mem (·.1) hx)
        calc fsGet (restoreAll ((n, s) :: rest) fs).1 ⟨n, FExt.yaml⟩
            = fsGet (restoreAll rest (fsWrite fs ⟨n, FExt.yaml⟩ (snapshotToYaml s))).1
                ⟨n, FExt.yaml⟩ := by simp [restoreAll]
          _ = fsGet (fsWrite fs ⟨n, FExt.yaml⟩ (snapshotToYaml s)) ⟨n, FExt.yaml⟩ :=
              restoreAll_get_preserved rest _ _ hrest
          _ = some (snapshotToYaml s) := fsGet_write_self fs _ _
      · calc fsGet (restoreAll ((n1, s1) :: rest) fs).1 ⟨n, FExt.yaml⟩
            = fsGet (restoreAll rest (fsWrite fs ⟨n1, FExt.yaml⟩ (snapshotToYaml s1))).1
                ⟨n, FExt.yaml⟩ := by simp [restoreAll]
          _ = some (snapshotToYaml s) := ih _ htail hnodup.2

/-- The delete loop never touches a file whose base name is a snapshot key. -/
theorem deleteStale_get_kept (snapKeys : List String) (files : List FileName)
    (fs : FS) (k : FileName) (h : k.base ∈ snapKeys) :
    fsGet (deleteStale snapKeys files fs).1 k = fsGet fs k := by
  induction files generalizing fs with
  | nil => rfl
  | cons f rest ih =>
      by_cases hf : f.base ∈ snapKeys
      · simp only [deleteStale, if_pos hf]
        exact ih fs
      · have hkf : k ≠ f := fun hc => hf (hc ▸ h)
        simp only [deleteStale, if_neg hf]
        calc fsGet (deleteStale snapKeys rest (fsErase fs f)).1 k
            = fsGet (fsErase fs f) k := ih _
          _ = fsGet fs k := fsGet_erase_other fs f k hkf

/-- C2: `discardChanges` fails when no latest version exists; otherwise it
writes `<name>.yaml` for every schema of the latest snapshot and deletes
every yaml/yml file whose base name is not a snapshot key, returning
`restored` = number of snapshot schemas and `deleted` = number of files so
deleted. -/
theorem discardChanges_restores_and_deletes (store : StoreSt) (d : String) (fs : FS) :
    (readLatest store = none →
       discardChangesSvc ⟨some store, some d⟩ fs =
         .error "No version to restore from. Cannot discard changes.") ∧
    (∀ v, readLatest store = some v → (v.snapshot.map (·.1)).Nodup →
       ∃ fs2,
         discardChangesSvc ⟨some store, some d⟩ fs =
           .ok (v.snapshot.length,
                (((fs.map (·.1)).filter fun f => f.ext.isYamlish).filter
                   fun f => decide (f.base ∉ v.snapshot.map (·.1))).length,
                fs2) ∧
         ∀ e ∈ v.snapshot, fsGet fs2 ⟨e.1, FExt.yaml⟩ = some (snapshotToYaml e.2)) := by
  constructor
  · intro h
    simp [discardChangesSvc, h]
  · intro v hv hnodup
    refine ⟨(deleteStale (v.snapshot.map (·.1))
               ((fs.map (·.1)).filter fun f => f.ext.isYamlish)
               (restoreAll v.snapshot fs).1).1, ?_, ?_⟩
    · simp only [discardChangesSvc, hv]
      rw [restoreAll_count, deleteStale_count]
    · intro e he
      rw [deleteStale_get_kept _ _ _ _ (List.mem_map_of_mem (·.1) he)]
      exact restoreAll_get_written v.snapshot fs e.1 e.2 (by simpa using he) hnodup

/-- C2 witness: restoring one `User` schema over a directory holding only a
stale `Old.yaml` writes `User.yaml` and deletes `Old.yaml`. -/
theorem discardChanges_restores_and_deletes_witness :
    ∃ fs2,
      discardChangesSvc ⟨some userStore, some "schemas"⟩
          [(⟨"Old", FExt.yaml⟩, emptyDoc)] =
        .ok (1, 1, fs2) ∧
      ∀ e ∈ [("User", userSnap)],
        fsGet fs2 ⟨e.1, FExt.yaml⟩ = some (snapshotToYaml e.2) :=
  (discardChanges_restores_and_deletes userStore "schemas"
      [(⟨"Old", FExt.yaml⟩, emptyDoc)]).2
    { version := 1, snapshot := [("User", userSnap)] } rfl (by decide)

/-- C10: `discardChanges` writes restored schemas only to `<name>.yaml` and
deletes only files whose base name is outside the snapshot, so a schema of
the latest snapshot that sits on disk as `<name>.yml` ends up with both the
untouched `<name>.yml` and the freshly restored `<name>.yaml`. -/
theorem discard_preserves_yml_sibling (store : StoreSt) (d : String) (fs : FS)
    (v : VFile) (n : String) (s : SchemaSnap) (c : YamlDoc)
    (hlat : readLatest store = some v)
    (hnodup : (v.snapshot.map (·.1)).Nodup)
    (hmem : (n, s) ∈ v.snapshot)
    (hold : fsGet fs ⟨n, FExt.yml⟩ = some c) :
    ∃ restored deleted fs2,
      discardChangesSvc ⟨some store, some d⟩ fs = .ok (restored, deleted, fs2) ∧
      fsGet fs2 ⟨n, FExt.yml⟩ = some c ∧
      fsGet fs2 ⟨n, FExt.yaml⟩ = some (snapshotToYaml s) := by
  have hbase : (⟨n, FExt.yml⟩ : FileName).base ∈ v.snapshot.map (·.1) :=
    List.mem_map_of_mem (·.1) hmem
  have hbase2 : (⟨n, FExt.yaml⟩ : FileName).base ∈ v.snapshot.map (·.1) :=
    List.mem_map_of_mem (·.1) hmem
  refine ⟨(restoreAll v.snapshot fs).2,
          (deleteStale (v.snapshot.map (·.1))
             ((fs.map (·.1)).filter fun f => f.ext.isYamlish)
             (restoreAll v.snapshot fs).1).2,
          (deleteStale (v.snapshot.map (·.1))
             ((fs.map (·.1)).filter fun f => f.ext.isYamlish)
             (restoreAll v.snapshot fs).1).1, ?_, ?_, ?_⟩
  · simp [discardChangesSvc, hlat]
  · rw [deleteStale_get_kept _ _ _ _ hbase]
    rw [restoreAll_get_preserved v.snapshot fs ⟨n, FExt.yml⟩
          fun e he hc => FExt.noConfusion (congrArg FileName.ext hc)]
    exact hold
  · rw [deleteStale_get_kept _ _ _ _ hbase2]
    exact restoreAll_get_written v.snapshot fs n s hmem hnodup

/-- C10 witness: with `User` stored on disk as `User.yml`, discard leaves the
old `User.yml` in place and adds the restored `User.yaml`. -/
theorem discard_preserves_yml_sibling_witness :
    ∃ restored deleted fs2,
      discardChangesSvc ⟨some userStore, some "schemas"⟩
          [(⟨"User", FExt.yml⟩, emptyDoc)] = .ok (restored, deleted, fs2) ∧
      fsGet fs2 ⟨"User", FExt.yml⟩ = some emptyDoc ∧
      fsGet fs2 ⟨"User", FExt.yaml⟩ = some (snapshotToYaml userSnap) :=
  discard_preserves_yml_sibling userStore "schemas"
    [(⟨"User", FExt.yml⟩, emptyDoc)]
    { version := 1, snapshot := [("User", userSnap)] }
    "User" userSnap emptyDoc rfl (by decide) (by decide) rfl
